import Mathlib

/-!
Verification of the markdown-in-HTML core (src/markdown/extensions/md_in_html.py).

The development shallowly embeds the two components of the file:

* the tag classification tables (span_tags, block_tags, raw_tags,
  block_level_tags);
* the content classifier MarkdownInHtmlProcessor.parse_element_content,
  a recursive tree walker over ElementTree nodes;
* the tree builder HTMLTreeBuilder, a subclass of html.parser.HTMLParser
  driving an xml.etree.ElementTree.TreeBuilder.

Element trees are modelled by the nested inductive HNode.  Text and tail
slots of a node are modelled by MText: a Python value that is either None
or a string optionally wrapped in util.AtomicString (a str subclass which
marks text as exempt from inline processing).  Attribute mappings are
modelled as association lists standing for Python dicts (keys unique).

The tree builder is modelled at the level of HTMLParser events (start tag,
end tag, data, comment, processing instruction, entity/character reference,
declaration, unknown declaration): the tokenizer that turns a raw string
into such events lives in the Python standard library, outside the
repository; every handler of HTMLTreeBuilder is an event handler, and all
claims about the builder are claims about the handlers.  The semantics of
xml.etree.ElementTree.TreeBuilder (buffered data flushed into text or tail
of the most recent element, comment and pi insertion, the close-time
assertions) follows CPython.  The external collaborators (the raw-content
stash and the block-level text parser) are not under src/ and are modelled
from the spec, as noted on their definitions.
-/

/-- A Python text value sitting in the text or tail slot of a node:
absent (None), or a string with a flag telling whether it is wrapped in
util.AtomicString. -/
inductive MText where
  | none : MText
  | str (s : String) (atomic : Bool) : MText
  deriving DecidableEq, Repr

/-- Python truthiness of a text slot: None and the empty string are falsy. -/
def MText.truthy : MText → Bool
  | .none => false
  | .str s _ => s != ""

/-- The underlying string of a text slot (only meaningful for truthy values). -/
def MText.getStr : MText → String
  | .none => ""
  | .str s _ => s

/-- Whether the slot holds an AtomicString. -/
def MText.isAtomic : MText → Bool
  | .none => false
  | .str _ a => a

/-- Modelled from the spec: util.AtomicString (repository file markdown/util.py,
not under src/), the atomic-text marker of spec section 6: a subclass of
Python str whose constructor stringifies its argument, so AtomicString(None)
is the string "None"; the result is marked atomic. -/
def AtomicString : MText → MText
  | .none => .str "None" true
  | .str s _ => .str s true

/-- The tag slot of an ElementTree node: a lower-cased element name, or the
special Comment / ProcessingInstruction factory tags used by the tree
builder when it inserts comments and processing instructions. -/
inductive HTag where
  | elem (name : String) : HTag
  | comment : HTag
  | pi : HTag
  deriving DecidableEq, Repr

/-- An ElementTree element: tag, attribute dict, leading text, children in
document order, and trailing text (tail). -/
inductive HNode where
  | mk (tag : HTag) (attrib : List (String × String)) (text : MText)
       (children : List HNode) (tail : MText) : HNode

def HNode.tag : HNode → HTag
  | .mk t _ _ _ _ => t

def HNode.attrib : HNode → List (String × String)
  | .mk _ a _ _ _ => a

def HNode.text : HNode → MText
  | .mk _ _ x _ _ => x

def HNode.children : HNode → List HNode
  | .mk _ _ _ cs _ => cs

def HNode.tail : HNode → MText
  | .mk _ _ _ _ tl => tl

/-- Replace the tail slot of a node. -/
def HNode.withTail : HNode → MText → HNode
  | .mk t a x cs _, tl => .mk t a x cs tl

/-- Block-level tags in which the content only gets span level parsing
(md_in_html.py line 25). -/
def span_tags : List String :=
  ["address", "dd", "dt", "h1", "h2", "h3", "h4", "h5", "h6", "legend", "li", "p", "td", "th"]

/-- Block-level tags in which the content gets parsed as blocks
(md_in_html.py lines 28-32). -/
def block_tags : List String :=
  ["address", "article", "aside", "blockquote", "body", "colgroup", "details", "div", "dl",
   "fieldset", "figcaption", "figure", "footer", "form", "iframe", "header", "hr", "main",
   "menu", "nav", "map", "noscript", "object", "ol", "section", "table", "tbody", "thead",
   "tfoot", "tr", "ul"]

/-- Block-level tags which never get their content parsed (line 35). -/
def raw_tags : List String :=
  ["canvas", "math", "option", "pre", "script", "style", "textarea"]

/-- block_level_tags = span_tags + block_tags + raw_tags (line 37). -/
def block_level_tags : List String := span_tags ++ block_tags ++ raw_tags

/-- Python membership test element.tag in a list of tag names.  The Comment
and ProcessingInstruction tags are function objects in Python and never
compare equal to a string. -/
def HTag.inList : HTag → List String → Bool
  | .elem n, l => l.contains n
  | .comment, _ => false
  | .pi, _ => false

/-- The override resolution step of parse_element_content (lines 149-151):
the override is used only when it is more restrictive than the markdown
attribute. -/
def resolveMd (override : Option String) (md_attr : String) : String :=
  if override == some "0" || (override == some "span" && md_attr != "0") then
    override.getD md_attr
  else md_attr

/-- Python list.insert(pos, a): insert at index pos, clamping to the end. -/
def pyInsert (l : List α) (pos : Nat) (a : α) : List α :=
  l.take pos ++ a :: l.drop pos

/-- The tail-collecting pass of the block branch (lines 167-177): walk the
children with their positions; for each child with truthy tail, reset the
tail to the plain empty string and record, at position pos + 1, the list of
nodes the external block parser produced from the tail text split into
lines, reversed.  Returns the updated children and the recorded insertions
in increasing position order. -/
def collectTails (pb : List String → List HNode) :
    Nat → List HNode → List HNode × List (Nat × List HNode)
  | _, [] => ([], [])
  | pos, c :: cs =>
    let rest := collectTails pb (pos + 1) cs
    if c.tail.truthy then
      ((c.withTail (.str "" false)) :: rest.1,
        (pos + 1, (pb (c.tail.getStr.splitOn "\n")).reverse) :: rest.2)
    else (c :: rest.1, rest.2)

/-- The insertion pass of the block branch (lines 180-183): for each
recorded (pos, items) pair — fed to this function already reversed — insert
each item at index pos. -/
def applyTails (ts : List (Nat × List HNode)) (l : List HNode) : List HNode :=
  ts.foldl (fun acc pr => pr.2.foldl (fun acc2 item => pyInsert acc2 pr.1 item) acc) l

mutual

/-- MarkdownInHtmlProcessor.parse_element_content (lines 129-208), with the
external block-level parser passed in as pb.  Modelled from the spec:
pb stands for the out-of-scope block parser invocation
self.parser.parseBlocks(dummy, lines) followed by list(dummy) — a function
from the list of lines to the list of nodes the parser appends to the dummy
container.  The pair of ifs computing the new text and children of the
block branch mirrors the two in-place mutations of the Python code. -/
def parse_element_content (pb : List String → List HNode) (override : Option String) :
    HNode → HNode
  | .mk tag attrib text children tail =>
    let md_attr0 := (List.lookup "markdown" attrib).getD "0"
    let attrib2 := attrib.filter (fun p => p.1 != "markdown")
    let md_attr1 := if md_attr0 == "markdown" then "1" else md_attr0
    let md_attr := resolveMd override md_attr1
    if (md_attr == "1" && tag.inList block_tags) ||
        (md_attr == "block" && tag.inList (span_tags ++ block_tags)) then
      -- Parse content as block level: children, tails, then text.
      let cs1 := pecChildrenNone pb children
      let ct := collectTails pb 0 cs1
      let cs3 := applyTails ct.2.reverse ct.1
      let cs4 :=
        if text.truthy then
          ((pb (text.getStr.splitOn "\n")).reverse).foldl
            (fun acc item => pyInsert acc 0 item) cs3
        else cs3
      let text2 := if text.truthy then MText.str "" false else text
      .mk tag attrib2 text2 cs4 tail
    else if (md_attr == "1" && tag.inList span_tags) ||
        (md_attr == "span" && tag.inList (span_tags ++ block_tags)) then
      -- Parse content as span level only.
      .mk tag attrib2 text (pecChildrenSpan pb children) tail
    else
      -- Disable inline parsing for everything else.
      .mk tag attrib2 (AtomicString text) (pecChildrenZero pb children) tail

/-- Recursion into existing children of the block branch (lines 162-163):
each child is parsed with no override. -/
def pecChildrenNone (pb : List String → List HNode) : List HNode → List HNode
  | [] => []
  | c :: cs => parse_element_content pb none c :: pecChildrenNone pb cs

/-- Recursion of the span branch (lines 200-201): each child is parsed with
override span. -/
def pecChildrenSpan (pb : List String → List HNode) : List HNode → List HNode
  | [] => []
  | c :: cs => parse_element_content pb (some "span") c :: pecChildrenSpan pb cs

/-- Recursion of the no-parse branch (lines 205-208): each child is parsed
with override 0, and afterwards its truthy tail, if any, is wrapped in
AtomicString. -/
def pecChildrenZero (pb : List String → List HNode) : List HNode → List HNode
  | [] => []
  | c :: cs =>
    let c2 := parse_element_content pb (some "0") c
    let c3 := if c2.tail.truthy then c2.withTail (AtomicString c2.tail) else c2
    c3 :: pecChildrenZero pb cs

end

mutual

/-- The node itself followed by every node of its subtree, in preorder. -/
def HNode.subnodes : HNode → List HNode
  | .mk t a x cs tl => .mk t a x cs tl :: subnodesList cs

def subnodesList : List HNode → List HNode
  | [] => []
  | c :: cs => c.subnodes ++ subnodesList cs

end

mutual

/-- Number of nodes of a tree. -/
def HNode.nodeCount : HNode → Nat
  | .mk _ _ _ cs _ => 1 + nodeCountList cs

def nodeCountList : List HNode → Nat
  | [] => 0
  | c :: cs => c.nodeCount + nodeCountList cs

end

/-! ## The tree builder

HTMLTreeBuilder (md_in_html.py lines 40-107) drives an
xml.etree.ElementTree.TreeBuilder created with insert_comments=True and
insert_pis=True.  The combined state is modelled by TBState:

* stack      — HTMLTreeBuilder.stack, the open tag names, head = top;
* openElems  — TreeBuilder._elem, the open elements, head = innermost;
  an open element keeps its already-closed children in reverse order;
* root       — TreeBuilder._root, the first top-level element;
* pendingData — TreeBuilder._data, the joined buffered character data;
* tailMode   — TreeBuilder._tail: buffered data belongs to the tail of the
  most recently closed or inserted node rather than to the text of the
  innermost open element;
* lostLast   — true when TreeBuilder._last refers to a node that was not
  inserted anywhere (an element closed, or a comment/pi arriving, when no
  element is open and a root already exists, or a comment/pi before any
  element): buffered data flushed in that situation is dropped with it;
* stashList  — the raw-content stash.  Modelled from the spec: the stash
  (markdown/util.py HtmlStash, not under src/) stores raw text spans and
  hands back opaque placeholder tokens; store appends the text and returns
  the placeholder of the running counter, here the index in the list, with
  indices counted from a fresh stash. -/
structure OpenElem where
  tag : HTag
  attrib : List (String × String)
  text : MText
  revChildren : List HNode

structure TBState where
  stack : List String
  openElems : List OpenElem
  root : Option HNode
  pendingData : String
  tailMode : Bool
  lostLast : Bool
  stashList : List String

/-- HTMLTreeBuilder.reset (lines 49-53): empty stack, fresh tree builder.
The stash reference is the one passed in; a fresh run starts counting
placeholders at the current stash size, taken here to be zero. -/
def initState : TBState :=
  { stack := [], openElems := [], root := none, pendingData := "",
    tailMode := false, lostLast := false, stashList := [] }

/-- The placeholder token util.HtmlStash.get_placeholder returns for
index n: STX ++ "wzxhzdk:" ++ n ++ ETX.  Modelled from the spec: the stash
returns an opaque token unique and stable for the run. -/
def htmlPlaceholder (n : Nat) : String := "\x02wzxhzdk:" ++ toString n ++ "\x03"

/-- Attribute normalization of handle_starttag (line 65): a valueless
attribute gets its own name as value; duplicate attribute names collapse as
in a Python dict comprehension (first position kept, last value wins). -/
def dictInsert (l : List (String × String)) (k v : String) : List (String × String) :=
  if l.any (fun p => p.1 == k) then
    l.map (fun p => if p.1 == k then (k, v) else p)
  else l ++ [(k, v)]

def toDict (attrs : List (String × Option String)) : List (String × String) :=
  attrs.foldl (fun acc p => dictInsert acc p.1 (p.2.getD p.1)) []

/-- Set the tail of the most recently closed child (head of revChildren). -/
def setHeadTail (cs : List HNode) (t : MText) : List HNode :=
  match cs with
  | [] => cs
  | c :: rest => c.withTail t :: rest

/-- TreeBuilder._flush: nonempty buffered data is stored as the tail of the
most recently closed or inserted node when tailMode is set, and as the text
of the innermost open element otherwise; data with no live target (lostLast,
or no element yet) is dropped.  When every open element has closed, the
tail target is the root. -/
def flush (st : TBState) : TBState :=
  if st.pendingData == "" then st
  else
    let d := MText.str st.pendingData false
    let st' :=
      if st.lostLast then st
      else if st.tailMode then
        match st.openElems with
        | oe :: rest =>
          { st with openElems := { oe with revChildren := setHeadTail oe.revChildren d } :: rest }
        | [] =>
          match st.root with
          | some r => { st with root := some (r.withTail d) }
          | none => st
      else
        match st.openElems with
        | oe :: rest => { st with openElems := { oe with text := d } :: rest }
        | [] => st
    { st' with pendingData := "" }

/-- TreeBuilder.start: flush, then open a new element under the current
innermost one. -/
def tb_start (t : String) (attrs : List (String × String)) (st : TBState) : TBState :=
  let st := flush st
  { st with openElems := ⟨.elem t, attrs, .none, []⟩ :: st.openElems,
            tailMode := false, lostLast := false }

/-- TreeBuilder.end: flush, close the innermost open element and attach it
to its parent; the first element closed at top level becomes the root, any
further top-level element is dropped (ElementTree keeps a single root).
The tag argument only feeds an assertion in CPython; HTMLTreeBuilder always
passes the tag of the innermost open element, so the assertion never
fires. -/
def tb_end (_t : String) (st : TBState) : TBState :=
  let st := flush st
  match st.openElems with
  | [] => st
  | oe :: rest =>
    let node := HNode.mk oe.tag oe.attrib oe.text oe.revChildren.reverse .none
    match rest with
    | oe2 :: rest2 =>
      let oe3 := { oe2 with revChildren := node :: oe2.revChildren }
      { st with openElems := oe3 :: rest2, tailMode := true, lostLast := false }
    | [] =>
      match st.root with
      | none => { st with openElems := [], root := some node, tailMode := true, lostLast := false }
      | some _ => { st with openElems := [], tailMode := true, lostLast := true }

/-- TreeBuilder.comment / TreeBuilder.pi via _handle_single with insertion
enabled (insert_comments=True, insert_pis=True in reset, line 52): flush,
then append a leaf with the special tag and the data as text under the
innermost open element; with no open element the leaf is not inserted. -/
def tb_leaf (tag : HTag) (s : String) (st : TBState) : TBState :=
  let st := flush st
  match st.openElems with
  | oe :: rest =>
    let leaf := HNode.mk tag [] (.str s false) [] .none
    let oe2 := { oe with revChildren := leaf :: oe.revChildren }
    { st with openElems := oe2 :: rest, tailMode := true, lostLast := false }
  | [] => { st with tailMode := true, lostLast := true }

/-- The loop of handle_endtag (lines 70-76) for a tag known to be in the
stack: pop and close elements until the tag itself has been closed. -/
def popUntilAux (t : String) : List String → TBState → TBState
  | [], st => { st with stack := [] }
  | item :: rest, st =>
    let st' := tb_end item { st with stack := rest }
    if item == t then st' else popUntilAux t rest st'

def popUntil (t : String) (st : TBState) : TBState := popUntilAux t st.stack st

/-- HTMLTreeBuilder.handle_starttag (lines 60-67): when a p is open
anywhere in the stack and the new tag is a known block-level tag, first
close the p (handle_endtag of p, which is the pop loop since p is in the
stack); then normalize the attributes, push the tag and open the element. -/
def handle_starttag (t : String) (attrs : List (String × Option String)) (st : TBState) : TBState :=
  let st := if st.stack.contains "p" && block_level_tags.contains t then popUntil "p" st else st
  let st := { st with stack := t :: st.stack }
  tb_start t (toDict attrs) st

/-- HTMLTreeBuilder.handle_data (lines 81-82): buffer the data. -/
def handle_data (s : String) (st : TBState) : TBState :=
  { st with pendingData := st.pendingData ++ s }

/-- HTMLTreeBuilder.handle_endtag (lines 69-79): a tag found in the stack
closes every element above it and itself; an orphan closing tag is treated
as an empty tag via handle_startendtag, whose HTMLParser default calls
handle_starttag then handle_endtag — and after that start the tag is on top
of the stack, so the inner handle_endtag is exactly the pop loop. -/
def handle_endtag (t : String) (st : TBState) : TBState :=
  if st.stack.contains t then popUntil t st
  else popUntil t (handle_starttag t [] st)

/-- HTMLTreeBuilder.handle_comment (lines 87-88): the comment is inserted
into the tree directly. -/
def handle_comment (s : String) (st : TBState) : TBState := tb_leaf .comment s st

/-- HTMLTreeBuilder.handle_pi (lines 84-85): the processing instruction is
inserted into the tree directly. -/
def handle_pi (s : String) (st : TBState) : TBState := tb_leaf .pi s st

/-- HTMLTreeBuilder.handle_entityref (lines 90-91): re-serialized as data. -/
def handle_entityref (name : String) (st : TBState) : TBState :=
  handle_data ("&" ++ name ++ ";") st

/-- HTMLTreeBuilder.handle_charref (lines 93-94): re-serialized as data. -/
def handle_charref (name : String) (st : TBState) : TBState :=
  handle_data ("&#" ++ name ++ ";") st

/-- HTMLTreeBuilder.stash (lines 96-100): store the text in the stash, then
emit a synthetic p element whose only content is the returned placeholder
token. -/
def stashText (text : String) (st : TBState) : TBState :=
  let placeholder := htmlPlaceholder st.stashList.length
  let st := { st with stashList := st.stashList ++ [text] }
  handle_endtag "p" (handle_data placeholder (handle_starttag "p" [] st))

/-- HTMLTreeBuilder.handle_decl (lines 102-103). -/
def handle_decl (d : String) (st : TBState) : TBState :=
  stashText ("<!" ++ d ++ ">") st

/-- HTMLTreeBuilder.unknown_decl (lines 105-107). -/
def unknown_decl (data : String) (st : TBState) : TBState :=
  let e := if data.startsWith "CDATA[" then "]]>" else "]>"
  stashText ("<![" ++ data ++ e) st

/-- The HTMLParser events that drive the handlers of HTMLTreeBuilder. -/
inductive HEvent where
  | starttag (t : String) (attrs : List (String × Option String)) : HEvent
  | endtag (t : String) : HEvent
  | data (s : String) : HEvent
  | comment (s : String) : HEvent
  | pi (s : String) : HEvent
  | entityref (name : String) : HEvent
  | charref (name : String) : HEvent
  | decl (s : String) : HEvent
  | unknownDecl (s : String) : HEvent

def processEvent (st : TBState) : HEvent → TBState
  | .starttag t attrs => handle_starttag t attrs st
  | .endtag t => handle_endtag t st
  | .data s => handle_data s st
  | .comment s => handle_comment s st
  | .pi s => handle_pi s st
  | .entityref n => handle_entityref n st
  | .charref n => handle_charref n st
  | .decl s => handle_decl s st
  | .unknownDecl s => unknown_decl s st

/-- HTMLParser.feed at the event level. -/
def feedEvents (evs : List HEvent) (st : TBState) : TBState := evs.foldl processEvent st

/-- HTMLTreeBuilder.close (lines 55-58): flush the HTMLParser buffer (a
no-op at the event level) and return treebuilder.close(), which asserts
that no element remains open and that a toplevel element exists. -/
def closeTB (st : TBState) : Except String HNode :=
  if st.openElems.isEmpty then
    match st.root with
    | some r => .ok r
    | none => .error "missing toplevel element"
  else .error "missing end tags"

/-- parse_html (lines 110-114) at the event level: feed the events of the
input to a fresh parser and close it. -/
def parse_html (evs : List HEvent) : Except String HNode :=
  closeTB (feedEvents evs initState)

/-! ## Sample inputs used by witnesses and counterexamples -/

/-- A childless p element with the given text, as produced for placeholder
paragraphs and by the sample block parser below. -/
def pNode (s : String) : HNode := .mk (.elem "p") [] (.str s false) [] .none

/-- A sample external block parser: one p node per line. -/
def pbMap : List String → List HNode := fun ls => ls.map pNode

/-- A sample external block parser with constant output. -/
def pbConst : List String → List HNode := fun _ => [pNode "B"]

/-- A div root with the given children, as built from a div start tag. -/
def divRoot (cs : List HNode) : HNode := .mk (.elem "div") [] .none cs .none

/-- An address element carrying a markdown attribute and leading text. -/
def addrMd (v t : String) : HNode :=
  .mk (.elem "address") [("markdown", v)] (.str t false) [] .none

/-- Event streams wrapping a single construct in a div element. -/
def evD (d : String) : List HEvent := [.starttag "div" [], .decl d, .endtag "div"]

def evU (u : String) : List HEvent := [.starttag "div" [], .unknownDecl u, .endtag "div"]

def evC (c : String) : List HEvent := [.starttag "div" [], .comment c, .endtag "div"]

def evP (s : String) : List HEvent := [.starttag "div" [], .pi s, .endtag "div"]

/-- The part of a stack strictly below the topmost occurrence of x: drop
up to and including the first occurrence. -/
def dropThroughFirst (x : String) (l : List String) : List String :=
  (l.dropWhile (fun y => y != x)).drop 1

/-! ## Helper lemmas -/

@[simp] theorem HNode.tag_mk (t a x cs tl) : (HNode.mk t a x cs tl).tag = t := rfl
@[simp] theorem HNode.attrib_mk (t a x cs tl) : (HNode.mk t a x cs tl).attrib = a := rfl
@[simp] theorem HNode.text_mk (t a x cs tl) : (HNode.mk t a x cs tl).text = x := rfl
@[simp] theorem HNode.children_mk (t a x cs tl) : (HNode.mk t a x cs tl).children = cs := rfl
@[simp] theorem HNode.tail_mk (t a x cs tl) : (HNode.mk t a x cs tl).tail = tl := rfl
@[simp] theorem HNode.withTail_mk (t a x cs tl tl') :
    (HNode.mk t a x cs tl).withTail tl' = HNode.mk t a x cs tl' := rfl

@[simp] theorem flush_stack (st : TBState) : (flush st).stack = st.stack := by
  unfold flush
  dsimp only
  repeat' split
  all_goals rfl

@[simp] theorem tb_end_stack (t : String) (st : TBState) : (tb_end t st).stack = st.stack := by
  unfold tb_end
  dsimp only
  repeat' split
  all_goals simp

theorem popUntilAux_stack (t : String) (stk : List String) (st : TBState)
    (h : stk.contains t = true) : (popUntilAux t stk st).stack = dropThroughFirst t stk := by
  induction stk generalizing st with
  | nil => simp at h
  | cons item rest ih =>
    by_cases hit : item = t
    · subst hit
      simp [popUntilAux, dropThroughFirst]
    · have hr : rest.contains t = true := by
        have h2 : t = item ∨ t ∈ rest := by simpa using h
        rcases h2 with h2 | h2
        · exact absurd h2.symm hit
        · simpa using h2
      have hbne : (item == t) = false := by simpa using hit
      simp only [popUntilAux, hbne]
      rw [if_neg (by simp)]
      rw [ih _ hr]
      simp [dropThroughFirst, List.dropWhile_cons, hbne, hit]

/-- parse_element_content never touches the tail of the node it is applied
to (child tails are rewritten by the call on the parent). -/
theorem pec_tail (pb : List String → List HNode) (ov : Option String) (n : HNode) :
    (parse_element_content pb ov n).tail = n.tail := by
  cases n with
  | mk t a x cs tl =>
    rw [parse_element_content]
    dsimp only
    repeat' split
    all_goals simp

/-- Replaying Python list.insert(pos, item) for each item of l, at a fixed
valid position, splices the reversal of l at that position. -/
theorem foldl_pyInsert (l : List HNode) : ∀ (acc : List HNode) (pos : Nat), pos ≤ acc.length →
    l.foldl (fun a x => pyInsert a pos x) acc = acc.take pos ++ l.reverse ++ acc.drop pos := by
  induction l with
  | nil => intro acc pos h; simp
  | cons b bs ih =>
    intro acc pos h
    have hlen : (acc.take pos).length = pos := by simp [List.length_take, Nat.min_eq_left h]
    rw [List.foldl_cons]
    rw [ih (pyInsert acc pos b) pos
      (by simp [pyInsert, List.length_append, List.length_take, List.length_drop]; omega)]
    rw [show pyInsert acc pos b = acc.take pos ++ b :: acc.drop pos from rfl]
    rw [List.take_left' hlen, List.drop_left' hlen]
    simp

/-- Induction over HNode with the inductive hypothesis available for every
child. -/
theorem hnode_ind (motive : HNode → Prop)
    (step : ∀ t a x cs tl, (∀ c ∈ cs, motive c) → motive (HNode.mk t a x cs tl)) :
    ∀ n, motive n := by
  have H : ∀ k n, sizeOf n ≤ k → motive n := by
    intro k
    induction k with
    | zero =>
      intro n hn
      cases n with
      | mk t a x cs tl => simp at hn
    | succ k ih =>
      intro n hn
      cases n with
      | mk t a x cs tl =>
        apply step
        intro c hc
        apply ih
        have h1 := List.sizeOf_lt_of_mem hc
        have h2 : sizeOf (HNode.mk t a x cs tl) = 1 + sizeOf t + sizeOf a + sizeOf x + sizeOf cs + sizeOf tl := by
          simp
        omega
  intro n
  exact H (sizeOf n) n le_rfl

/-- Removing a key from an attribute dict makes lookups of that key fail. -/
theorem lookup_filter_ne (k : String) (l : List (String × String)) :
    List.lookup k (l.filter (fun p => p.1 != k)) = none := by
  induction l with
  | nil => rfl
  | cons p rest ih =>
    obtain ⟨a, b⟩ := p
    by_cases hp : a = k
    · simpa [List.filter_cons, hp] using ih
    · have h1 : (a != k) = true := by simpa using hp
      have h2 : (k == a) = false := by
        simp only [beq_eq_false_iff_ne, ne_eq]
        exact fun hk => hp hk.symm
      simp [List.filter_cons, h1, List.lookup_cons, h2, ih]

@[simp] theorem tb_start_stack (t : String) (attrs : List (String × String)) (st : TBState) :
    (tb_start t attrs st).stack = st.stack := by
  simp [tb_start]

/-! ## C1 -/

/-- C1, counterexample.  The claim states that every comment encountered by
the tree builder is stored in the stash and replaced by a synthetic
paragraph holding a placeholder token, and never attached to the tree as a
node.  On an input consisting of a div element containing a comment, the
built tree attaches the comment directly as a comment node child of the
div, and the stash stays empty:
handle_comment forwards to treebuilder.comment (line 88) and the tree
builder was created with insert_comments=True (line 52). -/
theorem c1_counterexample :
    parse_html (evC "c") = .ok (divRoot [HNode.mk .comment [] (.str "c" false) [] .none]) ∧
    (feedEvents (evC "c") initState).stashList = [] :=
  ⟨rfl, rfl⟩

/-- C1, amended claim: declarations and unknown/malformed declarations are
never attached directly — their raw source text ("<!...>" resp. "<![...") is
appended to the stash and a synthetic paragraph containing exactly the
placeholder token is inserted at the current position — but comments and
processing instructions are attached to the tree directly as comment / pi
nodes and do not touch the stash. -/
theorem c1_amended (d u s : String) :
    parse_html (evD d) = .ok (divRoot [pNode (htmlPlaceholder 0)]) ∧
    (feedEvents (evD d) initState).stashList = ["<!" ++ d ++ ">"] ∧
    parse_html (evU u) = .ok (divRoot [pNode (htmlPlaceholder 0)]) ∧
    (feedEvents (evU u) initState).stashList =
      ["<![" ++ u ++ (if u.startsWith "CDATA[" then "]]>" else "]>")] ∧
    parse_html (evP s) = .ok (divRoot [HNode.mk .pi [] (.str s false) [] .none]) ∧
    (feedEvents (evP s) initState).stashList = [] ∧
    parse_html (evC s) = .ok (divRoot [HNode.mk .comment [] (.str s false) [] .none]) ∧
    (feedEvents (evC s) initState).stashList = [] :=
  ⟨rfl, rfl, rfl, rfl, rfl, rfl, rfl, rfl⟩

/-! ## C2 -/

/-- C2, counterexample.  The claim states that the builder returns a root
for every input, implicitly closing tags left open at the end of the scan.
But close (lines 55-58) never flushes the open-element stack, and
etree.TreeBuilder.close asserts that no element remains open, so the input
consisting of a single unclosed div start tag makes the build fail. -/
theorem c2_counterexample :
    parse_html [.starttag "div" []] = .error "missing end tags" := rfl

/-- C2, amended claim: scanning itself never fails — every event, orphan
close tags included, processes into a successor state (e.g. the orphan
/em below degrades to an empty em element and the build still succeeds) —
but tags left open at end of input are not implicitly closed: close
succeeds exactly when no element remains open and a toplevel element was
produced, and fails on dangling open tags. -/
theorem c2_amended :
    (∀ evs : List HEvent,
      (∃ r, parse_html evs = Except.ok r) ↔
        ((feedEvents evs initState).openElems = [] ∧
          (feedEvents evs initState).root.isSome = true)) ∧
    parse_html [.starttag "div" [], .endtag "em", .endtag "div"] =
      .ok (divRoot [HNode.mk (.elem "em") [] .none [] .none]) := by
  constructor
  · intro evs
    cases hoe : (feedEvents evs initState).openElems <;>
      cases hr : (feedEvents evs initState).root <;>
        simp [parse_html, closeTB, hoe, hr]
  · rfl

/-! ## C7 -/

/-- C7, counterexample.  The claim states that an orphan close tag leaves
the open-element stack unchanged.  With div and p open, the orphan close
tag /table goes through handle_startendtag, whose handle_starttag half
fires the unclosed-p auto-close (lines 61-63), so the p is closed and the
stack shrinks from p-div to div. -/
theorem c7_counterexample :
    (handle_endtag "table" (feedEvents [.starttag "div" [], .starttag "p" []] initState)).stack
      ≠ (feedEvents [.starttag "div" [], .starttag "p" []] initState).stack := by
  decide

/-- C7, amended claim: an orphan close tag never raises and becomes an
empty element with that tag inserted at the current position, with the
stack left unchanged, provided the orphan tag does not trigger the
unclosed-p auto-close (i.e. unless a p is open and the orphan tag is a
known block-level tag; in that case the open p is closed first). -/
theorem c7_amended (t : String) (stk : List String) (oe : OpenElem)
    (rest : List OpenElem) (rt : Option HNode) (tm ll : Bool) (sl : List String)
    (h1 : stk.contains t = false)
    (h2 : (stk.contains "p" && block_level_tags.contains t) = false) :
    handle_endtag t ⟨stk, oe :: rest, rt, "", tm, ll, sl⟩ =
      ⟨stk,
        ⟨oe.tag, oe.attrib, oe.text, HNode.mk (.elem t) [] .none [] .none :: oe.revChildren⟩ :: rest,
        rt, "", true, false, sl⟩ := by
  obtain ⟨otag, oattr, otext, orc⟩ := oe
  have m1 : t ∉ stk := by simpa using h1
  have m2 : ¬("p" ∈ stk ∧ t ∈ block_level_tags) := by
    rintro ⟨hp, hb⟩
    have e1 : stk.contains "p" = true := by simpa using hp
    have e2 : block_level_tags.contains t = true := by simpa using hb
    rw [e1, e2] at h2
    simp at h2
  simp [handle_endtag, handle_starttag, tb_start, flush, popUntil, popUntilAux, tb_end,
    toDict, dictInsert, m1, m2]

/-- Witness for the C7 amended theorem at a concrete input: an orphan em
close tag arrives while only a div is open. -/
theorem c7_amended_witness :
    handle_endtag "em" ⟨["div"], [⟨.elem "div", [], .none, []⟩], none, "", false, false, []⟩ =
      ⟨["div"], [⟨.elem "div", [], .none, [HNode.mk (.elem "em") [] .none [] .none]⟩],
        none, "", true, false, []⟩ :=
  c7_amended "em" ["div"] ⟨.elem "div", [], .none, []⟩ [] none false false [] rfl rfl

/-! ## C8 -/

/-- C8, counterexample.  The claim states that the unclosed-p auto-close
fires exactly when the innermost open element is a p.  After opening p and
then span, the innermost open element is the span, yet opening a div still
fires the auto-close (the code checks for p anywhere in the stack, line
61), closing both the span and the p: the stack becomes just div instead
of div-span-p. -/
theorem c8_counterexample :
    (feedEvents [.starttag "p" [], .starttag "span" []] initState).stack = ["span", "p"] ∧
    (handle_starttag "div" []
        (feedEvents [.starttag "p" [], .starttag "span" []] initState)).stack = ["div"] :=
  ⟨rfl, rfl⟩

/-- C8, amended claim: on a start tag, the auto-close fires exactly when a
p is open anywhere in the stack and the new tag is a known block-level tag;
it closes every element up to and including the topmost open p before the
new element is opened, and otherwise the new tag is simply pushed. -/
theorem c8_amended (t : String) (attrs : List (String × Option String)) (st : TBState) :
    (st.stack.contains "p" = true → block_level_tags.contains t = true →
      (handle_starttag t attrs st).stack = t :: dropThroughFirst "p" st.stack) ∧
    ((st.stack.contains "p" && block_level_tags.contains t) = false →
      (handle_starttag t attrs st).stack = t :: st.stack) := by
  constructor
  · intro hp hb
    unfold handle_starttag
    rw [if_pos (by rw [hp, hb]; decide)]
    rw [tb_start_stack]
    simp [popUntil, popUntilAux_stack "p" st.stack st hp]
  · intro hc
    unfold handle_starttag
    rw [if_neg (by simp only [hc]; exact Bool.false_ne_true)]
    rw [tb_start_stack]

/-- Witness for the C8 amended theorem: with stack span-p (p open but not
innermost), a div start tag closes through the p; with stack div, an em
start tag pushes without closing anything. -/
theorem c8_amended_witness :
    (handle_starttag "div" [] (feedEvents [.starttag "p" [], .starttag "span" []] initState)).stack
        = "div" :: dropThroughFirst "p"
            (feedEvents [.starttag "p" [], .starttag "span" []] initState).stack ∧
    (handle_starttag "em" [] (feedEvents [.starttag "div" []] initState)).stack
        = "em" :: (feedEvents [.starttag "div" []] initState).stack :=
  ⟨(c8_amended "div" [] _).1 rfl rfl, (c8_amended "em" [] _).2 rfl⟩

/-! ## Classifier helper lemmas -/

@[simp] theorem pyInsert_zero (l : List α) (a : α) : pyInsert l 0 a = a :: l := rfl

/-- Inserting every element of l at a fixed valid position, right to left,
splices l at that position. -/
theorem foldr_pyInsert (l : List HNode) (acc : List HNode) (pos : Nat) (h : pos ≤ acc.length) :
    List.foldr (fun x y => pyInsert y pos x) acc l = acc.take pos ++ l ++ acc.drop pos := by
  induction l with
  | nil =>
    simp only [List.foldr_nil, List.append_nil]
    exact (List.take_append_drop pos acc).symm
  | cons x xs ih =>
    rw [List.foldr_cons, ih]
    have hlen : (acc.take pos).length = pos := by simp [List.length_take, Nat.min_eq_left h]
    unfold pyInsert
    rw [show acc.take pos ++ xs ++ acc.drop pos = acc.take pos ++ (xs ++ acc.drop pos) by simp,
      List.take_left' hlen, List.drop_left' hlen]
    simp

@[simp] theorem foldr_pyInsert_one (xs : List HNode) (a : HNode) (l : List HNode) :
    List.foldr (fun x y => pyInsert y 1 x) (a :: l) xs = a :: (xs ++ l) := by
  simpa using foldr_pyInsert xs (a :: l) 1 (by simp)

@[simp] theorem foldr_pyInsert_two (xs : List HNode) (a b : HNode) (l : List HNode) :
    List.foldr (fun x y => pyInsert y 2 x) (a :: b :: l) xs = a :: b :: (xs ++ l) := by
  have h2 : 2 ≤ (a :: b :: l).length := by
    simp only [List.length_cons]
    omega
  simpa using foldr_pyInsert xs (a :: b :: l) 2 h2

@[simp] theorem isAtomic_AtomicString (x : MText) : (AtomicString x).isAtomic = true := by
  cases x <;> rfl

/-- With override 0, classification always takes the no-parse branch. -/
theorem pec_zero_eq (pb : List String → List HNode) (t : HTag) (a : List (String × String))
    (x : MText) (cs : List HNode) (tl : MText) :
    parse_element_content pb (some "0") (HNode.mk t a x cs tl) =
      HNode.mk t (a.filter (fun p => p.1 != "markdown")) (AtomicString x)
        (pecChildrenZero pb cs) tl := by
  simp [parse_element_content, resolveMd]

/-- With no override and no markdown attribute, classification takes the
no-parse branch. -/
theorem pec_none_absent_eq (pb : List String → List HNode) (t : HTag)
    (a : List (String × String)) (x : MText) (cs : List HNode) (tl : MText)
    (h : List.lookup "markdown" a = none) :
    parse_element_content pb none (HNode.mk t a x cs tl) =
      HNode.mk t (a.filter (fun p => p.1 != "markdown")) (AtomicString x)
        (pecChildrenZero pb cs) tl := by
  simp [parse_element_content, resolveMd, h]

/-- With no override and markdown equal to 0, classification takes the
no-parse branch. -/
theorem pec_none_zero_eq (pb : List String → List HNode) (t : HTag)
    (a : List (String × String)) (x : MText) (cs : List HNode) (tl : MText)
    (h : List.lookup "markdown" a = some "0") :
    parse_element_content pb none (HNode.mk t a x cs tl) =
      HNode.mk t (a.filter (fun p => p.1 != "markdown")) (AtomicString x)
        (pecChildrenZero pb cs) tl := by
  simp [parse_element_content, resolveMd, h]

@[simp] theorem subnodes_eq (n : HNode) : n.subnodes = n :: subnodesList n.children := by
  cases n with
  | mk t a x cs tl => simp [HNode.subnodes]

theorem self_mem_subnodes (n : HNode) : n ∈ n.subnodes := by
  simp

@[simp] theorem nodeCount_eq (n : HNode) : n.nodeCount = 1 + nodeCountList n.children := by
  cases n with
  | mk t a x cs tl => simp [HNode.nodeCount]

@[simp] theorem withTail_children (n : HNode) (tl : MText) : (n.withTail tl).children = n.children := by
  cases n; rfl

@[simp] theorem withTail_attrib (n : HNode) (tl : MText) : (n.withTail tl).attrib = n.attrib := by
  cases n; rfl

@[simp] theorem withTail_tail (n : HNode) (tl : MText) : (n.withTail tl).tail = tl := by
  cases n; rfl

/-! ## C3 -/

/-- C3, confirmed.  Under a block tag with markdown 1, leading text "a b"
(two lines) and a single child with trailing text "c d" (two lines), the
classified children are: the nodes the external block parser produced from
the leading text, then the recursively classified original child (its tail
reset to the empty string), then the nodes produced from its tail lines.
The second part shows the multi-child case: with two children carrying
tails t1 and t2, the tail splices land right after their respective
children, in original relative order (insertions collected first and
applied in reverse position order). -/
theorem c3_block_parse_order (pb : List String → List HNode) (c c1 c2 : HNode) (tl : MText)
    (hc : c.tail = MText.str "c\nd" false)
    (h1 : c1.tail = MText.str "t1" false)
    (h2 : c2.tail = MText.str "t2" false) :
    ((parse_element_content pb none
        (HNode.mk (.elem "div") [("markdown", "1")] (.str "a\nb" false) [c] tl)).children =
      pb ("a\nb".splitOn "\n") ++
        [(parse_element_content pb none c).withTail (.str "" false)] ++
        pb ("c\nd".splitOn "\n")) ∧
    ((parse_element_content pb none
        (HNode.mk (.elem "div") [("markdown", "1")] (.str "a\nb" false) [c] tl)).text =
      MText.str "" false) ∧
    ((parse_element_content pb none
        (HNode.mk (.elem "div") [("markdown", "1")] (.str "a\nb" false) [c1, c2] tl)).children =
      pb ("a\nb".splitOn "\n") ++
        [(parse_element_content pb none c1).withTail (.str "" false)] ++
        pb ("t1".splitOn "\n") ++
        [(parse_element_content pb none c2).withTail (.str "" false)] ++
        pb ("t2".splitOn "\n")) := by
  refine ⟨?_, ?_, ?_⟩ <;>
    simp [parse_element_content, pecChildrenNone, collectTails, applyTails, resolveMd,
      HTag.inList, block_tags, span_tags, MText.truthy, MText.getStr, pec_tail, hc, h1, h2,
      foldl_pyInsert]

/-- Witness for C3 at a concrete child and block parser. -/
theorem c3_block_parse_order_witness :
    ((parse_element_content pbMap none
        (HNode.mk (.elem "div") [("markdown", "1")] (.str "a\nb" false)
          [HNode.mk (.elem "em") [] .none [] (.str "c\nd" false)] .none)).children =
      pbMap ("a\nb".splitOn "\n") ++
        [(parse_element_content pbMap none
            (HNode.mk (.elem "em") [] .none [] (.str "c\nd" false))).withTail (.str "" false)] ++
        pbMap ("c\nd".splitOn "\n")) ∧
    ((parse_element_content pbMap none
        (HNode.mk (.elem "div") [("markdown", "1")] (.str "a\nb" false)
          [HNode.mk (.elem "em") [] .none [] (.str "c\nd" false)] .none)).text =
      MText.str "" false) ∧
    ((parse_element_content pbMap none
        (HNode.mk (.elem "div") [("markdown", "1")] (.str "a\nb" false)
          [HNode.mk (.elem "em") [] .none [] (.str "t1" false),
           HNode.mk (.elem "strong") [] .none [] (.str "t2" false)] .none)).children =
      pbMap ("a\nb".splitOn "\n") ++
        [(parse_element_content pbMap none
            (HNode.mk (.elem "em") [] .none [] (.str "t1" false))).withTail (.str "" false)] ++
        pbMap ("t1".splitOn "\n") ++
        [(parse_element_content pbMap none
            (HNode.mk (.elem "strong") [] .none [] (.str "t2" false))).withTail (.str "" false)] ++
        pbMap ("t2".splitOn "\n")) :=
  c3_block_parse_order pbMap
    (HNode.mk (.elem "em") [] .none [] (.str "c\nd" false))
    (HNode.mk (.elem "em") [] .none [] (.str "t1" false))
    (HNode.mk (.elem "strong") [] .none [] (.str "t2" false))
    .none rfl rfl rfl

/-! ## C4 -/

/-- C4, confirmed.  The inherited override only narrows: override 0 forces
effective value 0; override span forces span unless the own value is 0;
with no override the own value stands.  Behaviorally, a block-tag child
carrying markdown block under an ancestor classified span is treated as
span: its text is left untouched and no block-parser output is spliced in
(for every block parser), and only its markdown attribute is consumed. -/
theorem c4_override_narrows :
    (∀ v : String, resolveMd (some "0") v = "0") ∧
    (∀ v : String, v ≠ "0" → resolveMd (some "span") v = "span") ∧
    resolveMd (some "span") "0" = "0" ∧
    (∀ v : String, resolveMd none v = v) ∧
    (∀ pb : List String → List HNode,
      (parse_element_content pb none
          (HNode.mk (.elem "div") [("markdown", "span")] .none
            [HNode.mk (.elem "div") [("markdown", "block")] (.str "x" false) [] .none] .none)).children
        = [HNode.mk (.elem "div") [] (.str "x" false) [] .none]) := by
  refine ⟨?_, ?_, ?_, ?_, ?_⟩
  · intro v
    simp [resolveMd]
  · intro v hv
    have hb : (v != "0") = true := by simpa using hv
    simp [resolveMd, hb]
  · simp [resolveMd]
  · intro v
    simp [resolveMd]
  · intro pb
    simp [parse_element_content, pecChildrenSpan, resolveMd, HTag.inList, block_tags, span_tags]

/-- Witness for C4 at concrete values. -/
theorem c4_override_narrows_witness :
    resolveMd (some "0") "block" = "0" ∧
    resolveMd (some "span") "block" = "span" ∧
    resolveMd (some "span") "0" = "0" ∧
    resolveMd none "1" = "1" ∧
    (parse_element_content pbMap none
        (HNode.mk (.elem "div") [("markdown", "span")] .none
          [HNode.mk (.elem "div") [("markdown", "block")] (.str "x" false) [] .none] .none)).children
      = [HNode.mk (.elem "div") [] (.str "x" false) [] .none] := by
  obtain ⟨a, b, cc, d, e⟩ := c4_override_narrows
  exact ⟨a "block", b "block" (by decide), cc, d "1", e pbMap⟩

/-! ## C5 -/

/-- C5, counterexample.  The claim states that an address element with
effective classification value 1 receives span-level treatment, with the
block parser never invoked.  But address is a member of block_tags as well
(line 29), and the block branch (markdown 1 and tag in block_tags, line
153) is tested first, so markdown 1 on address triggers a full block parse:
with a block parser returning one node, that node appears among the
children of the classified element, which span-level treatment (only a
recursion into the, here empty, child list) could never produce. -/
theorem c5_counterexample :
    (parse_element_content pbConst none (addrMd "1" "x")).children ≠ [] := by
  simp [parse_element_content, addrMd, pbConst, collectTails, applyTails, pecChildrenNone,
    resolveMd, HTag.inList, block_tags, span_tags, MText.truthy, MText.getStr]

/-- C5, amended claim: for an address element, effective value 1 triggers
full block-level treatment, exactly like block (because address appears in
block_tags as well and the block branch is tested first); span-level
treatment on address requires an explicit effective value span. -/
theorem c5_amended (pb : List String → List HNode) :
    parse_element_content pb none (addrMd "1" "x") =
      HNode.mk (.elem "address") [] (.str "" false) (pb ("x".splitOn "\n")) .none ∧
    parse_element_content pb none (addrMd "block" "x") =
      HNode.mk (.elem "address") [] (.str "" false) (pb ("x".splitOn "\n")) .none ∧
    parse_element_content pb none (addrMd "span" "x") =
      HNode.mk (.elem "address") [] (.str "x" false) [] .none := by
  refine ⟨?_, ?_, ?_⟩ <;>
    simp [parse_element_content, addrMd, collectTails, applyTails, pecChildrenNone,
      pecChildrenSpan, resolveMd, HTag.inList, block_tags, span_tags, MText.truthy,
      MText.getStr, foldl_pyInsert]

/-! ## C9 -/

/-- C9, confirmed.  For an element whose tag is one of the raw tags,
classification takes the no-parse branch whatever the markdown attribute
value (the raw tags belong neither to span_tags nor to block_tags, so no
block or span branch condition can hold) and whatever the override: the
attribute is consumed, the text is wrapped in AtomicString, and the
children get the no-parse recursion — the block parser is never invoked on
this element. -/
theorem c9_raw_tags_no_parse (pb : List String → List HNode) (ov : Option String)
    (name : String) (h : name ∈ raw_tags) (a : List (String × String)) (x : MText)
    (cs : List HNode) (tl : MText) :
    parse_element_content pb ov (HNode.mk (.elem name) a x cs tl) =
      HNode.mk (.elem name) (a.filter (fun p => p.1 != "markdown")) (AtomicString x)
        (pecChildrenZero pb cs) tl := by
  have hb : name ∉ block_tags := by
    fin_cases h <;> decide
  have hs : name ∉ span_tags := by
    fin_cases h <;> decide
  simp [parse_element_content, HTag.inList, hb, hs]

/-- Witness for C9: a pre element with markdown block keeps its content
unparsed. -/
theorem c9_raw_tags_no_parse_witness :
    parse_element_content pbMap none
        (HNode.mk (.elem "pre") [("markdown", "block"), ("id", "i")] (.str "q" false) [] .none) =
      HNode.mk (.elem "pre") [("id", "i")] (.str "q" true) [] .none := by
  have h := c9_raw_tags_no_parse pbMap none "pre" (by decide)
    [("markdown", "block"), ("id", "i")] (.str "q" false) [] .none
  simpa [AtomicString, pecChildrenZero, List.filter] using h

/-! ## C6 -/

/-- Under override 0 the whole subtree keeps its node count, loses every
markdown attribute, and has every truthy tail below the top node wrapped in
AtomicString.  List-level step: the properties transfer from the recursive
calls to pecChildrenZero. -/
theorem zero_list_props (pb : List String → List HNode) (cs : List HNode)
    (ih : ∀ c ∈ cs,
      (parse_element_content pb (some "0") c).nodeCount = c.nodeCount ∧
      (∀ n ∈ (parse_element_content pb (some "0") c).subnodes,
        List.lookup "markdown" n.attrib = none) ∧
      (∀ n ∈ subnodesList (parse_element_content pb (some "0") c).children,
        n.tail.truthy = true → n.tail.isAtomic = true)) :
    nodeCountList (pecChildrenZero pb cs) = nodeCountList cs ∧
    (∀ n ∈ subnodesList (pecChildrenZero pb cs), List.lookup "markdown" n.attrib = none) ∧
    (∀ n ∈ subnodesList (pecChildrenZero pb cs), n.tail.truthy = true → n.tail.isAtomic = true) := by
  induction cs with
  | nil => simp [pecChildrenZero, nodeCountList, subnodesList]
  | cons c rest ihl =>
    have hc := ih c (by simp)
    have hrest := ihl (fun d hd => ih d (by simp [hd]))
    rw [show pecChildrenZero pb (c :: rest) =
        (let c2 := parse_element_content pb (some "0") c
         let c3 := if c2.tail.truthy then c2.withTail (AtomicString c2.tail) else c2
         c3 :: pecChildrenZero pb rest) from by rw [pecChildrenZero]]
    dsimp only
    set c2 := parse_element_content pb (some "0") c with hc2
    set c3 := if c2.tail.truthy then c2.withTail (AtomicString c2.tail) else c2 with hc3
    have hch : c3.children = c2.children := by
      rw [hc3]; split <;> simp
    have hat : c3.attrib = c2.attrib := by
      rw [hc3]; split <;> simp
    have hcount : c3.nodeCount = c2.nodeCount := by
      rw [nodeCount_eq, nodeCount_eq, hch]
    have htail : c3.tail.truthy = true → c3.tail.isAtomic = true := by
      rw [hc3]
      split
      · intro _; simp
      · intro ht
        rename_i hfalse
        rw [ht] at hfalse
        exact absurd rfl hfalse
    refine ⟨?_, ?_, ?_⟩
    · simp only [nodeCountList, hcount, hc.1, hrest.1]
    · intro n hn
      simp only [subnodesList, List.mem_append] at hn
      rcases hn with hn | hn
      · rw [subnodes_eq, List.mem_cons] at hn
        rcases hn with hn | hn
        · subst hn
          rw [hat]
          exact hc.2.1 c2 (self_mem_subnodes c2)
        · rw [hch] at hn
          apply hc.2.1
          rw [subnodes_eq]
          exact List.mem_cons_of_mem _ hn
      · exact hrest.2.1 n hn
    · intro n hn
      simp only [subnodesList, List.mem_append] at hn
      rcases hn with hn | hn
      · rw [subnodes_eq, List.mem_cons] at hn
        rcases hn with hn | hn
        · subst hn
          exact htail
        · rw [hch] at hn
          exact hc.2.2 n hn
      · exact hrest.2.2 n hn

/-- Under override 0 every node of the subtree takes the no-parse branch:
node count preserved, markdown gone everywhere, truthy tails below the node
atomic. -/
theorem zero_override_props (pb : List String → List HNode) (c : HNode) :
    (parse_element_content pb (some "0") c).nodeCount = c.nodeCount ∧
    (∀ n ∈ (parse_element_content pb (some "0") c).subnodes,
      List.lookup "markdown" n.attrib = none) ∧
    (∀ n ∈ subnodesList (parse_element_content pb (some "0") c).children,
      n.tail.truthy = true → n.tail.isAtomic = true) := by
  induction c using hnode_ind with
  | step t a x cs tl ih =>
    have hl := zero_list_props pb cs ih
    rw [pec_zero_eq]
    refine ⟨?_, ?_, ?_⟩
    · simp only [nodeCount_eq, HNode.children_mk, hl.1]
    · intro n hn
      rw [subnodes_eq, List.mem_cons] at hn
      rcases hn with hn | hn
      · subst hn
        simp only [HNode.attrib_mk]
        exact lookup_filter_ne "markdown" a
      · exact hl.2.1 n (by simpa using hn)
    · intro n hn
      exact hl.2.2 n (by simpa using hn)

/-- C6, confirmed.  An element carrying no markdown attribute is classified
with the default value 0: its own text is wrapped in AtomicString, every
truthy tail among its descendants is wrapped in AtomicString, no node is
added or removed anywhere in the subtree (the node count is preserved and
the block parser output never spliced), and the markdown attribute is
absent from every node of the resulting subtree.  Tails that are absent or
empty carry no tail text and are left unchanged (see C10). -/
theorem c6_no_attr_no_parse (pb : List String → List HNode) (el : HNode)
    (h : List.lookup "markdown" el.attrib = none) :
    (parse_element_content pb none el).text.isAtomic = true ∧
    (∀ n ∈ (parse_element_content pb none el).subnodes,
      List.lookup "markdown" n.attrib = none) ∧
    (∀ n ∈ subnodesList (parse_element_content pb none el).children,
      n.tail.truthy = true → n.tail.isAtomic = true) ∧
    (parse_element_content pb none el).nodeCount = el.nodeCount := by
  cases el with
  | mk t a x cs tl =>
    simp only [HNode.attrib_mk] at h
    rw [pec_none_absent_eq pb t a x cs tl h]
    have hl := zero_list_props pb cs (fun c _ => zero_override_props pb c)
    refine ⟨by simp, ?_, ?_, ?_⟩
    · intro n hn
      rw [subnodes_eq, List.mem_cons] at hn
      rcases hn with hn | hn
      · subst hn
        simp only [HNode.attrib_mk]
        exact lookup_filter_ne "markdown" a
      · exact hl.2.1 n (by simpa using hn)
    · intro n hn
      exact hl.2.2 n (by simpa using hn)
    · simp only [nodeCount_eq, HNode.children_mk, hl.1]

/-- Witness for C6 at a concrete tree and block parser. -/
theorem c6_no_attr_no_parse_witness :
    ((parse_element_content pbMap none
        (HNode.mk (.elem "div") [("id", "z")] (.str "t" false)
          [HNode.mk (.elem "em") [] .none [] (.str "u" false)] .none)).text.isAtomic = true) ∧
    (∀ n ∈ (parse_element_content pbMap none
        (HNode.mk (.elem "div") [("id", "z")] (.str "t" false)
          [HNode.mk (.elem "em") [] .none [] (.str "u" false)] .none)).subnodes,
      List.lookup "markdown" n.attrib = none) ∧
    (∀ n ∈ subnodesList (parse_element_content pbMap none
        (HNode.mk (.elem "div") [("id", "z")] (.str "t" false)
          [HNode.mk (.elem "em") [] .none [] (.str "u" false)] .none)).children,
      n.tail.truthy = true → n.tail.isAtomic = true) ∧
    (parse_element_content pbMap none
        (HNode.mk (.elem "div") [("id", "z")] (.str "t" false)
          [HNode.mk (.elem "em") [] .none [] (.str "u" false)] .none)).nodeCount =
      (HNode.mk (.elem "div") [("id", "z")] (.str "t" false)
        [HNode.mk (.elem "em") [] .none [] (.str "u" false)] .none : HNode).nodeCount :=
  c6_no_attr_no_parse pbMap
    (HNode.mk (.elem "div") [("id", "z")] (.str "t" false)
      [HNode.mk (.elem "em") [] .none [] (.str "u" false)] .none) rfl

/-! ## C10 -/

/-- C10, confirmed.  In the no-parse branch, an absent (None) leading text
is replaced by AtomicString(None), the atomic string "None" — the Python
str constructor stringifies the absent value — while a child whose tail is
absent keeps it absent, because the tail wrapping is guarded by a
truthiness test that an absent tail fails. -/
theorem c10_none_text_atomic (pb : List String → List HNode) (tg : HTag)
    (a : List (String × String)) (c : HNode) (tl : MText)
    (h : List.lookup "markdown" a = some "0")
    (hc : c.tail = MText.none) :
    (parse_element_content pb none (HNode.mk tg a MText.none [c] tl)).text =
      MText.str "None" true ∧
    (parse_element_content pb none (HNode.mk tg a MText.none [c] tl)).children.map HNode.tail =
      [MText.none] := by
  rw [pec_none_zero_eq pb tg a MText.none [c] tl h]
  constructor
  · simp [AtomicString]
  · simp [pecChildrenZero, pec_tail, hc, MText.truthy]

/-- Witness for C10: a div with markdown 0, no text, and one tailless
child. -/
theorem c10_none_text_atomic_witness :
    (parse_element_content pbMap none
        (HNode.mk (.elem "div") [("markdown", "0")] MText.none
          [HNode.mk (.elem "em") [] .none [] .none] .none)).text = MText.str "None" true ∧
    (parse_element_content pbMap none
        (HNode.mk (.elem "div") [("markdown", "0")] MText.none
          [HNode.mk (.elem "em") [] .none [] .none] .none)).children.map HNode.tail =
      [MText.none] :=
  c10_none_text_atomic pbMap (.elem "div") [("markdown", "0")]
    (HNode.mk (.elem "em") [] .none [] .none) .none rfl rfl
